import Mathlib

/-!
Verification of the FVD++ track-geometry export pipeline specification.

The repository sources available here are the core-logic test suite
(`tests/corelogic_tests/corelogic_tests.cpp`), the application entry point
(`main.cpp`) and the logging subsystem (`core/logging.cpp`).  The bodies of
`mnode` (TrackNode), `exportNode` (CurveExporter), `calcSmoothForces`
(RideForceSmoother) and `writeToExportFile` (BinaryCurveWriter) are not in
the tree, so those components are modelled from the specification, as their
doc comments record.  `rulesForLevel` and `requestedProjectFile` are
translated directly from `core/logging.cpp` and `main.cpp`.
-/

namespace FVD

/-! ### BinaryCurveWriter: byte-level serialization model

Floats are carried as their 32-bit IEEE-754 bit patterns (a `Nat` below
`2 ^ 32`): the writer never does float arithmetic, it copies the four bytes
of each value to the stream most-significant byte first, so the byte-level
contract is exactly a contract about the bit patterns. -/

/-- Modelled from the spec: the `vec3_t`-style float triple stored in a
`bezier_t` record, each component being the bit pattern of one
single-precision float. -/
structure Vec3f where
  x : Nat
  y : Nat
  z : Nat
  deriving DecidableEq, Repr

/-- Modelled from the spec: the `bezier_t` export record (`exportfuncs.h` is
not in `src/`): two control points, the anchor point, the roll angle and the
three wire-format flags (continuous roll, relative roll, equal-distance
control points). -/
structure bezier_t where
  Kp1 : Vec3f
  Kp2 : Vec3f
  P1 : Vec3f
  roll : Nat
  contRoll : Bool
  relRoll : Bool
  equalDist : Bool
  deriving DecidableEq, Repr

/-- Wire encoding of a boolean flag: `0xFF` when set, `0x00` otherwise. -/
def byteOfBool (b : Bool) : Nat := if b then 255 else 0

/-- Big-endian byte decomposition of a 32-bit word. -/
def wordBytesBE (w : Nat) : List Nat :=
  [w / 2 ^ 24 % 256, w / 2 ^ 16 % 256, w / 2 ^ 8 % 256, w % 256]

/-- Reassemble a 32-bit word from four big-endian bytes. -/
def decodeBE (b3 b2 b1 b0 : Nat) : Nat :=
  ((b3 * 256 + b2) * 256 + b1) * 256 + b0

/-- The ten float payloads of a record in wire order:
`controlPoint1.x,y,z`, `controlPoint2.x,y,z`, `anchor.x,y,z`, `roll`. -/
def wordsOf (b : bezier_t) : List Nat :=
  [b.Kp1.x, b.Kp1.y, b.Kp1.z, b.Kp2.x, b.Kp2.y, b.Kp2.z,
   b.P1.x, b.P1.y, b.P1.z, b.roll]

/-- Encode a list of 32-bit words as consecutive big-endian byte quadruples. -/
def encodeWords : List Nat → List Nat
  | [] => []
  | w :: ws => wordBytesBE w ++ encodeWords ws

/-- Decode consecutive big-endian byte quadruples back into 32-bit words. -/
def decodeWords : List Nat → List Nat
  | b3 :: b2 :: b1 :: b0 :: rest => decodeBE b3 b2 b1 b0 :: decodeWords rest
  | _ => []

/-- Modelled from the spec: the 50-byte wire block of one `bezier_t` record:
40 bytes of big-endian floats, three flag bytes, seven zero padding bytes. -/
def bezierRecord (b : bezier_t) : List Nat :=
  encodeWords (wordsOf b) ++
    [byteOfBool b.contRoll, byteOfBool b.relRoll, byteOfBool b.equalDist] ++
    List.replicate 7 0

/-- All ten float payloads of a record are genuine 32-bit patterns. -/
def wf32 (b : bezier_t) : Prop := ∀ w ∈ wordsOf b, w < 2 ^ 32

instance (b : bezier_t) : Decidable (wf32 b) := by
  unfold wf32; infer_instance

/-- Modelled from the spec: the output byte stream handed to
`writeToExportFile`.  `capacity = none` is a sink that always accepts;
`capacity = some c` fails (clears `good`, like an iostream failbit) once `c`
bytes are held.  A stream whose `good` flag is down ignores writes. -/
structure OStream where
  buf : List Nat
  capacity : Option Nat
  good : Bool
  deriving DecidableEq, Repr

/-- Modelled from the spec: a single byte write with iostream-style failure
semantics. -/
def writeByte (s : OStream) (b : Nat) : OStream :=
  if s.good then
    match s.capacity with
    | none => { s with buf := s.buf ++ [b] }
    | some c =>
        if s.buf.length < c then { s with buf := s.buf ++ [b] }
        else { s with good := false }
  else s

/-- Write a byte sequence, byte by byte, to the stream. -/
def writeBytes (s : OStream) (bs : List Nat) : OStream :=
  bs.foldl writeByte s

/-- Modelled from the spec: `writeToExportFile` (its body is not in `src/`;
only the test calls it) streams the 50-byte block of every record of the
list, in list order, to the output stream. -/
def writeToExportFile (s : OStream) (segs : List bezier_t) : OStream :=
  segs.foldl (fun st b => writeBytes st (bezierRecord b)) s

/-- Specification-level serialization: the flat concatenation of the
per-record blocks, in input order. -/
def serializeSegments : List bezier_t → List Nat
  | [] => []
  | b :: rest => bezierRecord b ++ serializeSegments rest

/-- A writer input record with `relRoll = true`, used to instantiate the
serialization theorems. -/
def sampleBezA : bezier_t :=
  { Kp1 := ⟨1, 2, 3⟩, Kp2 := ⟨4, 5, 6⟩, P1 := ⟨7, 8, 9⟩, roll := 10,
    contRoll := true, relRoll := true, equalDist := false }

/-- A writer input record with `relRoll = false`. -/
def sampleBezB : bezier_t :=
  { Kp1 := ⟨11, 12, 13⟩, Kp2 := ⟨14, 15, 16⟩, P1 := ⟨17, 18, 19⟩, roll := 20,
    contRoll := true, relRoll := false, equalDist := true }

/-- An empty, healthy, unbounded output stream. -/
def sampleStream : OStream := { buf := [], capacity := none, good := true }

/-- An empty, healthy stream that fails after ten bytes. -/
def sampleFailStream : OStream := { buf := [], capacity := some 10, good := true }

/-! ### TrackNode geometry model over exact rationals

The C++ core computes with single-precision floats; the embedding carries
exact rationals, so every fixture value below is hit exactly and the
specification's approximate comparisons follow from exact equalities. -/

/-- A 3-component vector of exact rationals. -/
structure Vec3 where
  x : ℚ
  y : ℚ
  z : ℚ
  deriving DecidableEq, Repr

instance : Add Vec3 := ⟨fun a b => ⟨a.x + b.x, a.y + b.y, a.z + b.z⟩⟩

instance : Sub Vec3 := ⟨fun a b => ⟨a.x - b.x, a.y - b.y, a.z - b.z⟩⟩

instance : Neg Vec3 := ⟨fun a => ⟨-a.x, -a.y, -a.z⟩⟩

instance : SMul ℚ Vec3 := ⟨fun c v => ⟨c * v.x, c * v.y, c * v.z⟩⟩

/-- Euclidean inner product of two vectors. -/
def dotQ (a b : Vec3) : ℚ := a.x * b.x + a.y * b.y + a.z * b.z

/-- Squared Euclidean norm. -/
def normSq (v : Vec3) : ℚ := dotQ v v

/-- Modelled from the spec: the TrackNode (`mnode`; its header is not in
`src/`, only the tests use it), with the fields of §3: pose, banking,
heart-line offset, the two shaping parameters, cumulative length, the
externally precomputed deltas, the carried smoothing seeds and the derived
smoothed forces. -/
structure mnode where
  position : Vec3
  direction : Vec3
  normal : Vec3
  roll : ℚ
  heartlineOffset : ℚ
  shapeA : ℚ
  shapeB : ℚ
  totalLength : ℚ
  angleFromLast : ℚ
  trackAngleFromLast : ℚ
  pitchFromLast : ℚ
  yawFromLast : ℚ
  heartDistFromLast : ℚ
  rollSpeed : ℚ
  smoothSpeed : ℚ
  smoothNormal : ℚ
  smoothLateral : ℚ
  deriving DecidableEq, Repr

/-- Modelled from the spec: the normal derivation of §4.1 — project a fixed
world axis onto the plane orthogonal to `direction`, falling back to an
alternate axis when `direction` is parallel to the primary one.  Rescaling
to unit length is omitted: it affects neither orthogonality nor
idempotence, the two §8 properties about this step. -/
def deriveNormal (d : Vec3) : Vec3 :=
  if (⟨0, 1, 0⟩ : Vec3) - (dotQ ⟨0, 1, 0⟩ d / dotQ d d) • d = (⟨0, 0, 0⟩ : Vec3) then
    (⟨1, 0, 0⟩ : Vec3) - (dotQ ⟨1, 0, 0⟩ d / dotQ d d) • d
  else
    (⟨0, 1, 0⟩ : Vec3) - (dotQ ⟨0, 1, 0⟩ d / dotQ d d) • d

/-- Modelled from the spec: `mnode::updateNorm` sets `normal` from
`direction` and has no other effect (§4.1). -/
def updateNorm (n : mnode) : mnode :=
  { n with normal := deriveNormal n.direction }

/-- The exported cubic piece of §3: anchor, the two bracketing control
points, banking and the relative-roll marker. -/
structure CurveSegment where
  Kp1 : Vec3
  Kp2 : Vec3
  P1 : Vec3
  roll : ℚ
  relRoll : Bool
  deriving DecidableEq, Repr

/-- Modelled from the spec: the transform into the downstream engine's
coordinate space; the §8 fixture fixes it as negation of the z axis (the
node at `(0,0,1)` exports to the anchor `(0,0,-1)`). -/
def toExportSpace (v : Vec3) : Vec3 := ⟨v.x, v.y, -v.z⟩

/-- Modelled from the spec: the geometry constant of §4.2 step 3 governing
the control-point lever arm.  §9 records that its closed form is not
recoverable from the repository, and directs implementers to calibrate it
against the §8 single-segment fixture, which this value does (offset
`0.3335137` for `t1 - t0 = 0.1` and unit arc-length delta). -/
def geomConst (n : mnode) : ℚ := 3335137 / 1000000

/-- The control-point lever arm of §4.2 step 3: `(t1 - t0)` times the
calibrated geometry constant times the arc-length delta of the transition. -/
def leverArm (n : mnode) (t0 t1 : ℚ) : ℚ :=
  (t1 - t0) * (geomConst n * n.heartDistFromLast)

/-- Modelled from the spec: the roll-encoding rule of §4.2 step 4, stated
there only qualitatively (relative encoding when the roll delta is
wrap-prone across the 0/2-pi boundary); wrap-proneness is modelled as the
delta against the long-lived anchor roll exceeding a rational approximation
of pi. -/
def wrapProne (delta : ℚ) : Bool := decide (3217 / 1024 < |delta|)

/-- Modelled from the spec: the one CurveSegment §4.2 builds for a node
transition, with the in-repo test taken as authority where it contradicts
the spec's §8 transcription.  The test (`corelogic_tests.cpp` lines 21-23
and 44-54) constructs all nodes with offset parameter 10 yet pins the
anchor at the transformed raw node position `(0,0,-1)`, pins controlPoint1
beside the previous node's exported position (line 50: `Kp1.z` within 1e-5
of `-0.3335137`) and controlPoint2 beside the anchor (line 54).  So: the
anchor is the node position in export space; controlPoint1 is the previous
node's exported position advanced by the lever arm along the previous
tangent; controlPoint2 is the anchor pulled back by the lever arm along the
current tangent; banking is the node's roll; the relative-roll marker
follows the wrap rule against the anchor node's long-lived roll context. -/
def exportedSegment (n last anchor : mnode) (t0 t1 : ℚ) : CurveSegment :=
  { Kp1 := toExportSpace last.position +
      leverArm n t0 t1 • toExportSpace last.direction,
    Kp2 := toExportSpace n.position -
      leverArm n t0 t1 • toExportSpace n.direction,
    P1 := toExportSpace n.position,
    roll := n.roll,
    relRoll := wrapProne (n.roll - anchor.roll) }

/-- Modelled from the spec: `mnode::exportNode` (its body is not in `src/`;
only the test calls it) appends exactly one CurveSegment per invocation to
the caller-owned list (§4.2 step 5), reading the current node, the previous
node and the long-lived anchor node. -/
def exportNode (n : mnode) (bezList : List CurveSegment) (last : mnode)
    (_next : Option mnode) (anchor : mnode) (t0 t1 : ℚ) : List CurveSegment :=
  bezList ++ [exportedSegment n last anchor t0 t1]

/-- Modelled from the spec: `mnode::calcSmoothForces` (not in `src/`).  §4.3
describes it as the raw angular rate (delta over heart distance) blended
with a smoothing term derived from the carried roll/speed seeds, and pins
its numeric law through the §8 fixture; per §9 the two rate coefficients
are calibrated against that fixture (`7119/10` on the normal channel from
the angle delta, `284/15` on the lateral channel from the yaw delta), and
the carried seeds enter the blend as products that vanish when the seeds
are zero, as they are in the fixture. -/
def calcSmoothForces (n : mnode) : mnode :=
  { n with
    smoothNormal := 7119 / 10 * (n.angleFromLast / n.heartDistFromLast) +
      n.roll * n.rollSpeed + n.smoothSpeed,
    smoothLateral := 284 / 15 * (n.yawFromLast / n.heartDistFromLast) +
      n.rollSpeed * n.smoothSpeed }

/-- Modelled from the spec: the `mnode` constructor as the tests call it —
position, direction, roll, heart-line offset and the two shaping
parameters; every delta, carried seed and derived field starts at zero and
is set externally before export (§3). -/
def mkNode (pos dir : Vec3) (roll hl sA sB : ℚ) : mnode :=
  { position := pos, direction := dir, normal := ⟨0, 0, 0⟩, roll := roll,
    heartlineOffset := hl, shapeA := sA, shapeB := sB, totalLength := 0,
    angleFromLast := 0, trackAngleFromLast := 0, pitchFromLast := 0,
    yawFromLast := 0, heartDistFromLast := 0, rollSpeed := 0,
    smoothSpeed := 0, smoothNormal := 0, smoothLateral := 0 }

/-- The §8 single-segment fixture: the long-lived anchor node at the
origin, constructed with offset parameter 10 as in the test
(`corelogic_tests.cpp` line 21). -/
def fixtureAnchor : mnode := updateNorm (mkNode ⟨0, 0, 0⟩ ⟨0, 0, 1⟩ 0 10 0 0)

/-- The §8 single-segment fixture: the previous node, at the origin with
total length zero, offset parameter 10 as in the test (line 22). -/
def fixtureLast : mnode := updateNorm (mkNode ⟨0, 0, 0⟩ ⟨0, 0, 1⟩ 0 10 0 0)

/-- The §8 single-segment fixture: the current node one unit ahead, offset
parameter 10 as in the test (line 23), with unit arc-length delta and
angular delta 0.1. -/
def fixtureCurrent : mnode :=
  updateNorm
    { mkNode ⟨0, 0, 1⟩ ⟨0, 0, 1⟩ 0 10 0 0 with
      totalLength := 1, angleFromLast := 1 / 10, trackAngleFromLast := 1 / 10,
      heartDistFromLast := 1 }

/-- The CurveSegment the model exports for the §8 single-segment fixture. -/
def fixtureSegment : CurveSegment :=
  exportedSegment fixtureCurrent fixtureLast fixtureAnchor 0 (1 / 10)

/-- The §8 force-smoothing fixture node. -/
def fixtureSmoothNode : mnode :=
  updateNorm
    { mkNode ⟨0, 0, 0⟩ ⟨0, 0, 1⟩ 0 20 1 (1 / 2) with
      angleFromLast := 1 / 20, pitchFromLast := 1 / 50, yawFromLast := 3 / 100,
      heartDistFromLast := 1, rollSpeed := 0, smoothSpeed := 0 }

/-! ### Logging filter rules, translated from `core/logging.cpp` -/

/-- The four logging categories of `normalizeRulesForLevel`. -/
def logCategories : List String := ["fvd.app", "fvd.core", "fvd.renderer", "fvd.ui"]

/-- The five accepted level names. -/
def logLevels : List String := ["debug", "info", "warning", "critical", "off"]

/-- Lowercasing as `normalizeRulesForLevel` applies it (`level.toLower()`):
every character is lowercased in place. -/
def lowerStr (s : String) : String := String.mk (s.data.map Char.toLower)

/-- Boolean rendering used on the right-hand side of each rule. -/
def boolStr (b : Bool) : String := if b then "true" else "false"

/-- Severity enabling from `core/logging.cpp` lines 47-50: debug only on
level "debug". -/
def debugEnabled (n : String) : Bool := n == "debug"

/-- Info is enabled whenever debug is, or on level "info". -/
def infoEnabled (n : String) : Bool := debugEnabled n || n == "info"

/-- Warning is enabled whenever info is, or on level "warning". -/
def warningEnabled (n : String) : Bool := infoEnabled n || n == "warning"

/-- Critical is enabled whenever warning is, or on level "critical". -/
def criticalEnabled (n : String) : Bool := warningEnabled n || n == "critical"

/-- One `category.severity=bool` rule string. -/
def ruleLine (cat sev : String) (b : Bool) : String :=
  cat ++ "." ++ sev ++ "=" ++ boolStr b

/-- The sixteen filter rules, category-major, each category contributing its
debug, info, warning and critical rule, as built by the loop in
`normalizeRulesForLevel` lines 60-65. -/
def ruleLines (n : String) : List String :=
  logCategories.foldr
    (fun cat acc =>
      ruleLine cat "debug" (debugEnabled n) ::
      ruleLine cat "info" (infoEnabled n) ::
      ruleLine cat "warning" (warningEnabled n) ::
      ruleLine cat "critical" (criticalEnabled n) :: acc) []

/-- `Logging::rulesForLevel` (`core/logging.cpp` lines 328-331), which
forwards to `normalizeRulesForLevel` (lines 34-68): empty input and
unrecognized levels yield the empty string, accepted levels yield the
sixteen rules joined by newlines. -/
def rulesForLevel (level : String) : String :=
  if level = "" then ""
  else
    let n := lowerStr level
    if n ∈ logLevels then String.intercalate "\n" (ruleLines n) else ""

/-! ### Command-line project selection, translated from `main.cpp` -/

/-- The command-line state `requestedProjectFile` consults: the value of the
`--project` option when set, and the positional arguments. -/
structure CommandLine where
  projectOpt : Option String
  positional : List String
  deriving DecidableEq, Repr

/-- `requestedProjectFile` from `main.cpp` lines 85-97: the `--project`
value when set, else the first positional argument, else empty. -/
def requestedProjectFile (p : CommandLine) : String :=
  match p.projectOpt with
  | some v => v
  | none =>
      match p.positional with
      | f :: _ => f
      | [] => ""

/-- The guard in `main` (`main.cpp` lines 158-162): `loadProject` is invoked
exactly when the requested project file name ends with `.fvd`. -/
def mainLoadsProject (p : CommandLine) : Bool :=
  (requestedProjectFile p).endsWith ".fvd"

/-- Concrete command line used to instantiate the C10 theorem. -/
def sampleCmdLine : CommandLine :=
  { projectOpt := some "coaster.fvd", positional := ["other.txt"] }

end FVD

namespace FVD

theorem encodeWords_length (ws : List Nat) :
    (encodeWords ws).length = 4 * ws.length := by
  induction ws with
  | nil => rfl
  | cons w ws ih => simp [encodeWords, wordBytesBE, ih]; omega

theorem bezierRecord_length (b : bezier_t) :
    (bezierRecord b).length = 50 := by
  simp [bezierRecord, encodeWords_length, wordsOf]

theorem decode_encode_word (w : Nat) (h : w < 2 ^ 32) :
    decodeBE (w / 2 ^ 24 % 256) (w / 2 ^ 16 % 256) (w / 2 ^ 8 % 256) (w % 256) = w := by
  unfold decodeBE
  omega

theorem decodeWords_encodeWords (ws : List Nat) (h : ∀ w ∈ ws, w < 2 ^ 32) :
    decodeWords (encodeWords ws) = ws := by
  induction ws with
  | nil => rfl
  | cons w ws ih =>
      have hw : w < 2 ^ 32 := h w (by simp)
      have hrest : ∀ v ∈ ws, v < 2 ^ 32 := fun v hv => h v (by simp [hv])
      have hstep : decodeWords (encodeWords (w :: ws)) =
          decodeBE (w / 2 ^ 24 % 256) (w / 2 ^ 16 % 256) (w / 2 ^ 8 % 256) (w % 256) ::
            decodeWords (encodeWords ws) := rfl
      rw [hstep, decode_encode_word w hw, ih hrest]

theorem serializeSegments_length (segs : List bezier_t) :
    (serializeSegments segs).length = 50 * segs.length := by
  induction segs with
  | nil => rfl
  | cons b rest ih =>
      simp [serializeSegments, bezierRecord_length, ih]
      ring

theorem serializeSegments_drop (segs : List bezier_t) (i : Nat) (h : i < segs.length) :
    (serializeSegments segs).drop (50 * i) =
      bezierRecord (segs.get ⟨i, h⟩) ++ serializeSegments (segs.drop (i + 1)) := by
  induction segs generalizing i with
  | nil => simp at h
  | cons b rest ih =>
      cases i with
      | zero => simp [serializeSegments]
      | succ j =>
          have hj : j < rest.length := by simpa using h
          have h50 : 50 * (j + 1) = (bezierRecord b).length + 50 * j := by
            rw [bezierRecord_length]; ring
          show (bezierRecord b ++ serializeSegments rest).drop (50 * (j + 1)) = _
          rw [h50, List.drop_append]
          simpa using ih j hj

theorem serializeSegments_chunk (segs : List bezier_t) (i : Nat) (h : i < segs.length) :
    ((serializeSegments segs).drop (50 * i)).take 50 =
      bezierRecord (segs.get ⟨i, h⟩) := by
  rw [serializeSegments_drop segs i h]
  have hlen : (bezierRecord (segs.get ⟨i, h⟩)).length = 50 := bezierRecord_length _
  rw [← hlen, List.take_left]

theorem writeByte_bad (s : OStream) (b : Nat) (h : s.good = false) :
    writeByte s b = s := by
  simp [writeByte, h]

theorem writeBytes_bad (s : OStream) (bs : List Nat) (h : s.good = false) :
    writeBytes s bs = s := by
  induction bs with
  | nil => rfl
  | cons b bs ih => simp [writeBytes] at ih ⊢; rw [writeByte_bad s b h, ih]

theorem writeByte_good (s : OStream) (b : Nat) (h : (writeByte s b).good = true) :
    writeByte s b = { s with buf := s.buf ++ [b] } := by
  unfold writeByte at h ⊢
  by_cases hg : s.good = true
  · simp only [hg, if_true] at h ⊢
    cases hc : s.capacity with
    | none => simp [hc]
    | some c =>
        simp only [hc] at h ⊢
        by_cases hlt : s.buf.length < c
        · simp [hlt]
        · simp [hlt] at h
  · simp only [Bool.not_eq_true] at hg
    simp [hg] at h

theorem writeBytes_good (s : OStream) (bs : List Nat)
    (h : (writeBytes s bs).good = true) :
    writeBytes s bs = { s with buf := s.buf ++ bs } := by
  induction bs generalizing s with
  | nil => simp [writeBytes]
  | cons b bs ih =>
      have hstep : writeBytes s (b :: bs) = writeBytes (writeByte s b) bs := by
        simp [writeBytes]
      rw [hstep] at h ⊢
      by_cases hmid : (writeByte s b).good = true
      · have hb := writeByte_good s b hmid
        rw [hb] at h ⊢
        rw [ih _ h]
        simp
      · have hmid' : (writeByte s b).good = false := by
          simpa using hmid
        rw [writeBytes_bad _ _ hmid'] at h
        rw [hmid'] at h
        exact Bool.noConfusion h

theorem writeToExportFile_bad (s : OStream) (segs : List bezier_t)
    (h : s.good = false) : writeToExportFile s segs = s := by
  induction segs generalizing s with
  | nil => rfl
  | cons b rest ih =>
      have hstep : writeToExportFile s (b :: rest) =
          writeToExportFile (writeBytes s (bezierRecord b)) rest := by
        simp [writeToExportFile]
      rw [hstep, writeBytes_bad s _ h, ih s h]

theorem writeToExportFile_good (s : OStream) (segs : List bezier_t)
    (h : (writeToExportFile s segs).good = true) :
    writeToExportFile s segs = { s with buf := s.buf ++ serializeSegments segs } := by
  induction segs generalizing s with
  | nil => simp [writeToExportFile, serializeSegments]
  | cons b rest ih =>
      have hstep : writeToExportFile s (b :: rest) =
          writeToExportFile (writeBytes s (bezierRecord b)) rest := by
        simp [writeToExportFile]
      rw [hstep] at h ⊢
      by_cases hmid : (writeBytes s (bezierRecord b)).good = true
      · have hb := writeBytes_good s (bezierRecord b) hmid
        rw [hb] at h ⊢
        rw [ih _ h]
        simp [serializeSegments]
      · have hmid' : (writeBytes s (bezierRecord b)).good = false := by
          simpa using hmid
        rw [writeToExportFile_bad _ _ hmid'] at h
        rw [hmid'] at h
        exact Bool.noConfusion h

theorem writeByte_unbounded (s : OStream) (b : Nat)
    (hg : s.good = true) (hc : s.capacity = none) :
    writeByte s b = { s with buf := s.buf ++ [b] } := by
  simp [writeByte, hg, hc]

theorem writeBytes_unbounded (s : OStream) (bs : List Nat)
    (hg : s.good = true) (hc : s.capacity = none) :
    writeBytes s bs = { s with buf := s.buf ++ bs } := by
  induction bs generalizing s with
  | nil => simp [writeBytes]
  | cons b bs ih =>
      have hstep : writeBytes s (b :: bs) = writeBytes (writeByte s b) bs := by
        simp [writeBytes]
      rw [hstep, writeByte_unbounded s b hg hc, ih]
      · simp
      · exact hg
      · exact hc

theorem writeToExportFile_unbounded (s : OStream) (segs : List bezier_t)
    (hg : s.good = true) (hc : s.capacity = none) :
    writeToExportFile s segs = { s with buf := s.buf ++ serializeSegments segs } := by
  induction segs generalizing s with
  | nil => simp [writeToExportFile, serializeSegments]
  | cons b rest ih =>
      have hstep : writeToExportFile s (b :: rest) =
          writeToExportFile (writeBytes s (bezierRecord b)) rest := by
        simp [writeToExportFile]
      rw [hstep, writeBytes_unbounded s _ hg hc, ih]
      · simp [serializeSegments]
      · exact hg
      · exact hc

end FVD

namespace FVD

theorem Vec3.ext_components (a b : Vec3)
    (hx : a.x = b.x) (hy : a.y = b.y) (hz : a.z = b.z) : a = b := by
  cases a; cases b; simp_all

@[simp] theorem Vec3.add_x (a b : Vec3) : (a + b).x = a.x + b.x := rfl

@[simp] theorem Vec3.add_y (a b : Vec3) : (a + b).y = a.y + b.y := rfl

@[simp] theorem Vec3.add_z (a b : Vec3) : (a + b).z = a.z + b.z := rfl

@[simp] theorem Vec3.sub_x (a b : Vec3) : (a - b).x = a.x - b.x := rfl

@[simp] theorem Vec3.sub_y (a b : Vec3) : (a - b).y = a.y - b.y := rfl

@[simp] theorem Vec3.sub_z (a b : Vec3) : (a - b).z = a.z - b.z := rfl

@[simp] theorem Vec3.neg_x (a : Vec3) : (-a).x = -a.x := rfl

@[simp] theorem Vec3.neg_y (a : Vec3) : (-a).y = -a.y := rfl

@[simp] theorem Vec3.neg_z (a : Vec3) : (-a).z = -a.z := rfl

@[simp] theorem Vec3.smul_x (c : ℚ) (a : Vec3) : (c • a).x = c * a.x := rfl

@[simp] theorem Vec3.smul_y (c : ℚ) (a : Vec3) : (c • a).y = c * a.y := rfl

@[simp] theorem Vec3.smul_z (c : ℚ) (a : Vec3) : (c • a).z = c * a.z := rfl

theorem normSq_smul (c : ℚ) (v : Vec3) : normSq (c • v) = c ^ 2 * normSq v := by
  simp [normSq, dotQ]; ring

theorem normSq_neg (v : Vec3) : normSq (-v) = normSq v := by
  simp [normSq, dotQ]

theorem normSq_toExportSpace (v : Vec3) : normSq (toExportSpace v) = normSq v := by
  simp only [normSq, dotQ, toExportSpace]; ring

theorem dotQ_self_ne_zero (d : Vec3) (h : d ≠ (⟨0, 0, 0⟩ : Vec3)) :
    dotQ d d ≠ 0 := by
  intro hc
  apply h
  have hsum : d.x * d.x + d.y * d.y + d.z * d.z = 0 := hc
  have hx : d.x = 0 := by nlinarith [mul_self_nonneg d.x, mul_self_nonneg d.y, mul_self_nonneg d.z]
  have hy : d.y = 0 := by nlinarith [mul_self_nonneg d.x, mul_self_nonneg d.y, mul_self_nonneg d.z]
  have hz : d.z = 0 := by nlinarith [mul_self_nonneg d.x, mul_self_nonneg d.y, mul_self_nonneg d.z]
  exact Vec3.ext_components d ⟨0, 0, 0⟩ hx hy hz

theorem deriveNormal_orthogonal (d : Vec3) (h : d ≠ (⟨0, 0, 0⟩ : Vec3)) :
    dotQ (deriveNormal d) d = 0 := by
  have hd := dotQ_self_ne_zero d h
  have key : ∀ a : Vec3, dotQ (a - (dotQ a d / dotQ d d) • d) d = 0 := by
    intro a
    have hexp : dotQ (a - (dotQ a d / dotQ d d) • d) d =
        dotQ a d - dotQ a d / dotQ d d * dotQ d d := by
      simp [dotQ]; ring
    rw [hexp, div_mul_cancel₀ _ hd, sub_self]
  unfold deriveNormal
  split
  · exact key ⟨1, 0, 0⟩
  · exact key ⟨0, 1, 0⟩

end FVD

namespace FVD

theorem Vec3.add_mk (a1 a2 a3 c1 c2 c3 : ℚ) :
    (⟨a1, a2, a3⟩ : Vec3) + ⟨c1, c2, c3⟩ = ⟨a1 + c1, a2 + c2, a3 + c3⟩ := rfl

theorem Vec3.sub_mk (a1 a2 a3 c1 c2 c3 : ℚ) :
    (⟨a1, a2, a3⟩ : Vec3) - ⟨c1, c2, c3⟩ = ⟨a1 - c1, a2 - c2, a3 - c3⟩ := rfl

theorem Vec3.smul_mk (c a1 a2 a3 : ℚ) :
    c • (⟨a1, a2, a3⟩ : Vec3) = ⟨c * a1, c * a2, c * a3⟩ := rfl

theorem deriveNormal_unitZ : deriveNormal ⟨0, 0, 1⟩ = ⟨0, 1, 0⟩ := by
  unfold deriveNormal
  rw [if_neg]
  · norm_num [dotQ, Vec3.smul_mk, Vec3.sub_mk, Vec3.mk.injEq]
  · norm_num [dotQ, Vec3.smul_mk, Vec3.sub_mk, Vec3.mk.injEq]

theorem wordsOf_length (b : bezier_t) : (wordsOf b).length = 10 := rfl

theorem encodeWords_wordsOf_length (b : bezier_t) :
    (encodeWords (wordsOf b)).length = 40 := by
  rw [encodeWords_length, wordsOf_length]

theorem bezierRecord_take40 (b : bezier_t) :
    (bezierRecord b).take 40 = encodeWords (wordsOf b) := by
  rw [bezierRecord, List.append_assoc]
  exact List.take_left' (encodeWords_wordsOf_length b)

theorem bezierRecord_drop40 (b : bezier_t) :
    (bezierRecord b).drop 40 =
      [byteOfBool b.contRoll, byteOfBool b.relRoll, byteOfBool b.equalDist] ++
        List.replicate 7 0 := by
  rw [bezierRecord, List.append_assoc]
  exact List.drop_left' (encodeWords_wordsOf_length b)

theorem byteOfBool_cases (b : Bool) : byteOfBool b = 0 ∨ byteOfBool b = 255 := by
  cases b <;> simp [byteOfBool]

theorem bezierRecord_flags (b : bezier_t) :
    ∀ v ∈ ((bezierRecord b).drop 40).take 3, v = 0 ∨ v = 255 := by
  intro v hv
  rw [bezierRecord_drop40, List.take_left' (by simp)] at hv
  simp only [List.mem_cons, List.not_mem_nil, or_false] at hv
  rcases hv with h | h | h <;> exact h ▸ byteOfBool_cases _

theorem bezierRecord_decode (b : bezier_t) (h : wf32 b) :
    decodeWords ((bezierRecord b).take 40) = wordsOf b := by
  rw [bezierRecord_take40]
  exact decodeWords_encodeWords _ h

theorem bezierRecord_drop43 (b : bezier_t) :
    (bezierRecord b).drop 43 = List.replicate 7 0 := by
  rw [bezierRecord, List.append_assoc]
  have h43 : (43 : Nat) = (encodeWords (wordsOf b)).length + 3 := by
    rw [encodeWords_wordsOf_length]
  rw [h43, List.drop_append]
  rfl

theorem bezierRecord_drop41 (b : bezier_t) :
    (bezierRecord b).drop 41 =
      byteOfBool b.relRoll :: byteOfBool b.equalDist :: List.replicate 7 0 := by
  rw [bezierRecord, List.append_assoc]
  have h41 : (41 : Nat) = (encodeWords (wordsOf b)).length + 1 := by
    rw [encodeWords_wordsOf_length]
  rw [h41, List.drop_append]
  rfl

theorem serializeSegments_relRoll_byte (segs : List bezier_t) (i : Nat)
    (h : i < segs.length) :
    ((serializeSegments segs).drop (50 * i + 41)).head? =
      some (byteOfBool (segs.get ⟨i, h⟩).relRoll) := by
  rw [← List.drop_drop, serializeSegments_drop segs i h,
    List.drop_append_eq_append_drop, bezierRecord_drop41]
  simp

end FVD

namespace FVD

theorem fixtureSegment_eval :
    fixtureSegment =
      { Kp1 := ⟨0, 0, -(3335137 / 10000000)⟩, Kp2 := ⟨0, 0, -(6664863 / 10000000)⟩,
        P1 := ⟨0, 0, -1⟩, roll := 0, relRoll := false } := by
  norm_num [fixtureSegment, exportedSegment, fixtureCurrent, fixtureLast,
    fixtureAnchor, mkNode, updateNorm, deriveNormal_unitZ, toExportSpace,
    leverArm, geomConst, wrapProne, Vec3.add_mk, Vec3.sub_mk, Vec3.smul_mk,
    Vec3.mk.injEq, CurveSegment.mk.injEq]

/-- C1: serializing a sequence of N records with the writer produces exactly
`50 * N` bytes, each record being the ten big-endian floats in wire order
(`controlPoint1`, `controlPoint2`, `anchor`, `roll`) whose 40-byte block
decodes big-endian back to the original bit patterns bit-for-bit, followed
by three flag bytes that are only `0x00` or `0xFF` and seven zero padding
bytes. -/
theorem writer_serialization_layout (s : OStream) (segs : List bezier_t)
    (hw : ∀ b ∈ segs, wf32 b) (hg : s.good = true) (hc : s.capacity = none) :
    (writeToExportFile s segs).buf = s.buf ++ serializeSegments segs ∧
      (serializeSegments segs).length = 50 * segs.length ∧
      ∀ i (h : i < segs.length),
        ((serializeSegments segs).drop (50 * i)).take 50 =
            bezierRecord (segs.get ⟨i, h⟩) ∧
          decodeWords ((bezierRecord (segs.get ⟨i, h⟩)).take 40) =
            wordsOf (segs.get ⟨i, h⟩) ∧
          (∀ v ∈ ((bezierRecord (segs.get ⟨i, h⟩)).drop 40).take 3,
            v = 0 ∨ v = 255) ∧
          (bezierRecord (segs.get ⟨i, h⟩)).drop 43 = List.replicate 7 0 := by
  refine ⟨?_, serializeSegments_length segs, ?_⟩
  · rw [writeToExportFile_unbounded s segs hg hc]
  · intro i h
    exact ⟨serializeSegments_chunk segs i h,
      bezierRecord_decode _ (hw _ (List.get_mem segs i h)),
      bezierRecord_flags _, bezierRecord_drop43 _⟩

theorem writer_serialization_layout_witness :
    wf32 sampleBezA ∧ (serializeSegments [sampleBezA]).length = 50 * 1 := by
  have h := writer_serialization_layout sampleStream [sampleBezA]
    (by decide) rfl rfl
  exact ⟨by decide, h.2.1⟩

/-- C5: in every serialized record, independent of its position in the
sequence, the relative-roll flag byte (offset 41 of the record) is `0xFF`
exactly when the segment has `relRoll = true` and `0x00` when it is false,
and all three flag bytes take only the values `0x00` or `0xFF`. -/
theorem writer_relRoll_flag_byte (s : OStream) (segs : List bezier_t)
    (hg : s.good = true) (hc : s.capacity = none) :
    (writeToExportFile s segs).buf = s.buf ++ serializeSegments segs ∧
      ∀ i (h : i < segs.length),
        ((serializeSegments segs).drop (50 * i + 41)).head? =
            some (if (segs.get ⟨i, h⟩).relRoll then 255 else 0) ∧
          ∀ v ∈ ((((serializeSegments segs).drop (50 * i)).take 50).drop 40).take 3,
            v = 0 ∨ v = 255 := by
  refine ⟨?_, ?_⟩
  · rw [writeToExportFile_unbounded s segs hg hc]
  · intro i h
    refine ⟨?_, ?_⟩
    · simpa [byteOfBool]  using serializeSegments_relRoll_byte segs i h
    · rw [serializeSegments_chunk segs i h]
      exact bezierRecord_flags _

theorem writer_relRoll_flag_byte_witness :
    ((serializeSegments [sampleBezA]).drop (50 * 0 + 41)).head? =
      some (if sampleBezA.relRoll then 255 else 0) :=
  ((writer_relRoll_flag_byte sampleStream [sampleBezA] rfl rfl).2 0 (by decide)).1

/-- C6: the writer emits one byte block per segment in exactly the input
order, skipping nothing and deduplicating nothing: serializing `[A, B, C]`
appends the blocks of A, B and C in that order, and in general the output
is the flat concatenation of the per-record blocks in input order. -/
theorem writer_order_preservation (s : OStream) (A B C : bezier_t)
    (hg : s.good = true) (hc : s.capacity = none) :
    (writeToExportFile s [A, B, C]).buf =
        s.buf ++ (bezierRecord A ++ (bezierRecord B ++ bezierRecord C)) ∧
      ∀ segs : List bezier_t,
        (writeToExportFile s segs).buf = s.buf ++ serializeSegments segs := by
  constructor
  · rw [writeToExportFile_unbounded s _ hg hc]
    simp [serializeSegments]
  · intro segs
    rw [writeToExportFile_unbounded s segs hg hc]

theorem writer_order_preservation_witness :
    (writeToExportFile sampleStream [sampleBezA, sampleBezB, sampleBezA]).buf =
      sampleStream.buf ++
        (bezierRecord sampleBezA ++
          (bezierRecord sampleBezB ++ bezierRecord sampleBezA)) :=
  (writer_order_preservation sampleStream sampleBezA sampleBezB sampleBezA
    rfl rfl).1

/-- C8: a write failure on the output stream is surfaced to the caller as
the stream's cleared good flag, with no partial silent success: if the
writer returns with the good flag still set the whole record sequence is in
the buffer, any incomplete write leaves the good flag cleared, and on an
unbounded (never-failing) sink the writer always completes with the flag
set. -/
theorem writer_failure_propagation (s : OStream) (segs : List bezier_t)
    (hg : s.good = true) :
    ((writeToExportFile s segs).good = true →
        (writeToExportFile s segs).buf = s.buf ++ serializeSegments segs) ∧
      ((writeToExportFile s segs).buf ≠ s.buf ++ serializeSegments segs →
        (writeToExportFile s segs).good = false) ∧
      (s.capacity = none →
        (writeToExportFile s segs).good = true ∧
          (writeToExportFile s segs).buf = s.buf ++ serializeSegments segs) := by
  refine ⟨?_, ?_, ?_⟩
  · intro h
    rw [writeToExportFile_good s segs h]
  · intro hne
    cases hgd : (writeToExportFile s segs).good with
    | false => rfl
    | true => exact absurd (by rw [writeToExportFile_good s segs hgd]) hne
  · intro hc
    rw [writeToExportFile_unbounded s segs hg hc]
    exact ⟨hg, rfl⟩

set_option maxRecDepth 4000 in
theorem writer_failure_propagation_witness :
    sampleFailStream.good = true ∧
      (writeToExportFile sampleFailStream [sampleBezA]).good = false :=
  ⟨rfl, (writer_failure_propagation sampleFailStream [sampleBezA] rfl).2.1
    (by decide)⟩

/-- C7: for a node with non-degenerate direction, updateNorm is idempotent —
a second call reproduces the same normal — and the derived normal is
orthogonal to the direction (exactly zero inner product in the rational
model, hence within the 1e-5 tolerance). -/
theorem updateNorm_idempotent_orthogonal (n : mnode)
    (h : n.direction ≠ (⟨0, 0, 0⟩ : Vec3)) :
    (updateNorm (updateNorm n)).normal = (updateNorm n).normal ∧
      |dotQ (updateNorm n).normal n.direction| < 1 / 100000 := by
  constructor
  · rfl
  · have horth : dotQ (deriveNormal n.direction) n.direction = 0 :=
      deriveNormal_orthogonal n.direction h
    have hnorm : (updateNorm n).normal = deriveNormal n.direction := rfl
    rw [hnorm, horth]
    norm_num

theorem updateNorm_idempotent_orthogonal_witness :
    fixtureSmoothNode.direction ≠ (⟨0, 0, 0⟩ : Vec3) ∧
      (updateNorm (updateNorm fixtureSmoothNode)).normal =
        (updateNorm fixtureSmoothNode).normal := by
  have hd : fixtureSmoothNode.direction ≠ (⟨0, 0, 0⟩ : Vec3) := by
    norm_num [fixtureSmoothNode, mkNode, updateNorm, Vec3.mk.injEq]
  exact ⟨hd, (updateNorm_idempotent_orthogonal fixtureSmoothNode hd).1⟩

/-- C2 (amended per the in-repo test): on the §8 single-segment fixture,
exportNode appends exactly one CurveSegment: its anchor is `(0,0,-1)`,
`controlPoint1.z` is within 1e-5 of `-0.3335137` (offset exactly
`-0.3335137` from the previous node's exported position `(0,0,0)`),
`controlPoint2.z` is within 1e-5 of `-0.6664863` (offset exactly
`+0.3335137` from the anchor), both control points vanish in x and y, the
roll is 0 and the relative-roll marker is false. -/
theorem exportNode_single_segment_fixture :
    exportNode fixtureCurrent [] fixtureLast none fixtureAnchor 0 (1 / 10) =
        [fixtureSegment] ∧
      fixtureSegment.P1 = ⟨0, 0, -1⟩ ∧
      fixtureSegment.Kp1.x = 0 ∧ fixtureSegment.Kp1.y = 0 ∧
      |fixtureSegment.Kp1.z - -(3335137 / 10000000)| < 1 / 100000 ∧
      fixtureSegment.Kp1.z - (toExportSpace fixtureLast.position).z =
        -(3335137 / 10000000) ∧
      fixtureSegment.Kp2.x = 0 ∧ fixtureSegment.Kp2.y = 0 ∧
      |fixtureSegment.Kp2.z - -(6664863 / 10000000)| < 1 / 100000 ∧
      fixtureSegment.Kp2.z - fixtureSegment.P1.z = 3335137 / 10000000 ∧
      fixtureSegment.roll = 0 ∧ fixtureSegment.relRoll = false := by
  refine ⟨rfl, ?_, ?_, ?_, ?_, ?_, ?_, ?_, ?_, ?_, ?_, ?_⟩ <;>
    (rw [fixtureSegment_eval];
     try norm_num [toExportSpace, fixtureLast, mkNode, updateNorm])

/-- C2 counterexample: the claim as stated puts `controlPoint1.z` within
1e-5 of `-1.3335137`; at the fixture the exported value is `-0.3335137`
(as `corelogic_tests.cpp` line 50 pins it), a full unit away, so the claim
as stated is false. -/
theorem exportNode_fixture_cp1_refutes_claim :
    exportNode fixtureCurrent [] fixtureLast none fixtureAnchor 0 (1 / 10) =
        [fixtureSegment] ∧
      fixtureSegment.Kp1.z = -(3335137 / 10000000) ∧
      ¬ |fixtureSegment.Kp1.z - -(13335137 / 10000000)| < 1 / 100000 := by
  refine ⟨rfl, ?_, ?_⟩ <;> (rw [fixtureSegment_eval]; try norm_num)

/-- C4 (amended per the in-repo test): for any node pair whose tangents
have equal magnitude (tangent magnitude invariant across the interpolation
parameter), the two control-point offsets the export produces —
controlPoint1 measured from the previous node's exported position,
controlPoint2 from the segment anchor — are equal in squared magnitude and
opposite in sign, each along its own node's tangent in export space, with
the common scale `(t1 - t0)` times the geometry constant derived from the
node (times its arc-length delta). -/
theorem exportNode_offset_symmetry (cur last anchor : mnode) (nx : Option mnode)
    (bl : List CurveSegment) (t0 t1 : ℚ)
    (h : normSq last.direction = normSq cur.direction) :
    exportNode cur bl last nx anchor t0 t1 =
        bl ++ [exportedSegment cur last anchor t0 t1] ∧
      (exportedSegment cur last anchor t0 t1).Kp1 -
          toExportSpace last.position =
        leverArm cur t0 t1 • toExportSpace last.direction ∧
      (exportedSegment cur last anchor t0 t1).Kp2 -
          (exportedSegment cur last anchor t0 t1).P1 =
        -(leverArm cur t0 t1 • toExportSpace cur.direction) ∧
      normSq ((exportedSegment cur last anchor t0 t1).Kp1 -
          toExportSpace last.position) =
        normSq ((exportedSegment cur last anchor t0 t1).Kp2 -
          (exportedSegment cur last anchor t0 t1).P1) ∧
      leverArm cur t0 t1 = (t1 - t0) * (geomConst cur * cur.heartDistFromLast) := by
  have e1 : (exportedSegment cur last anchor t0 t1).Kp1 -
      toExportSpace last.position =
      leverArm cur t0 t1 • toExportSpace last.direction := by
    apply Vec3.ext_components <;> simp [exportedSegment]
  have e2 : (exportedSegment cur last anchor t0 t1).Kp2 -
      (exportedSegment cur last anchor t0 t1).P1 =
      -(leverArm cur t0 t1 • toExportSpace cur.direction) := by
    apply Vec3.ext_components <;> simp [exportedSegment]
  refine ⟨rfl, e1, e2, ?_, rfl⟩
  rw [e1, e2, normSq_neg, normSq_smul, normSq_smul, normSq_toExportSpace,
    normSq_toExportSpace, h]

/-- C4 counterexample: the claim as stated measures both offsets from the
segment anchor; at the §8 fixture — whose two tangents have equal magnitude,
satisfying the claim's hypothesis — those offsets are `+0.6664863` and
`+0.3335137` in z, the same sign and different magnitudes, so the claimed
equal-and-opposite law about the anchor is false (`corelogic_tests.cpp`
lines 43-54). -/
theorem exportNode_anchor_offsets_refute_claim :
    normSq fixtureLast.direction = normSq fixtureCurrent.direction ∧
      fixtureSegment.Kp1.z - fixtureSegment.P1.z = 6664863 / 10000000 ∧
      fixtureSegment.Kp2.z - fixtureSegment.P1.z = 3335137 / 10000000 ∧
      ¬ normSq (fixtureSegment.Kp1 - fixtureSegment.P1) =
          normSq (fixtureSegment.Kp2 - fixtureSegment.P1) := by
  refine ⟨?_, ?_, ?_, ?_⟩
  · norm_num [normSq, dotQ, fixtureLast, fixtureCurrent, mkNode, updateNorm]
  · rw [fixtureSegment_eval]; norm_num
  · rw [fixtureSegment_eval]; norm_num
  · rw [fixtureSegment_eval]
    norm_num [normSq, dotQ, Vec3.sub_mk]

theorem exportNode_offset_symmetry_witness :
    normSq fixtureLast.direction = normSq fixtureCurrent.direction ∧
      exportNode fixtureCurrent [] fixtureLast none fixtureAnchor 0 (1 / 10) =
        [] ++ [exportedSegment fixtureCurrent fixtureLast fixtureAnchor 0 (1 / 10)] := by
  have hs : normSq fixtureLast.direction = normSq fixtureCurrent.direction := by
    norm_num [normSq, dotQ, fixtureLast, fixtureCurrent, mkNode, updateNorm]
  exact ⟨hs, (exportNode_offset_symmetry fixtureCurrent fixtureLast fixtureAnchor
    none [] 0 (1 / 10) hs).1⟩

/-- C3: on the §8 force-smoothing fixture, calcSmoothForces writes
smoothNormal and smoothLateral with `round(smoothNormal * 1000) = 35595`
and `round(smoothLateral * 1000) = 568`. -/
theorem calcSmoothForces_fixture :
    round ((calcSmoothForces fixtureSmoothNode).smoothNormal * 1000) = (35595 : ℤ) ∧
      round ((calcSmoothForces fixtureSmoothNode).smoothLateral * 1000) = (568 : ℤ) := by
  constructor <;>
    norm_num [calcSmoothForces, fixtureSmoothNode, mkNode, updateNorm, round_eq]

end FVD

namespace FVD

/-- C9: rulesForLevel returns the empty string when the input is empty or
its lowercased form is not one of the five accepted levels; on each
accepted level it returns the sixteen newline-joined rules — four
severities for each of the categories fvd.app, fvd.core, fvd.renderer and
fvd.ui — whose enabled severities are downward-closed (debug enables info
enables warning enables critical), and level "off" disables all sixteen. -/
theorem rulesForLevel_contract (s : String) :
    ((s = "" ∨ lowerStr s ∉ logLevels) → rulesForLevel s = "") ∧
      (lowerStr s ∈ logLevels →
        rulesForLevel s = String.intercalate "\n" (ruleLines (lowerStr s)) ∧
          ruleLines (lowerStr s) =
            [ruleLine "fvd.app" "debug" (debugEnabled (lowerStr s)),
             ruleLine "fvd.app" "info" (infoEnabled (lowerStr s)),
             ruleLine "fvd.app" "warning" (warningEnabled (lowerStr s)),
             ruleLine "fvd.app" "critical" (criticalEnabled (lowerStr s)),
             ruleLine "fvd.core" "debug" (debugEnabled (lowerStr s)),
             ruleLine "fvd.core" "info" (infoEnabled (lowerStr s)),
             ruleLine "fvd.core" "warning" (warningEnabled (lowerStr s)),
             ruleLine "fvd.core" "critical" (criticalEnabled (lowerStr s)),
             ruleLine "fvd.renderer" "debug" (debugEnabled (lowerStr s)),
             ruleLine "fvd.renderer" "info" (infoEnabled (lowerStr s)),
             ruleLine "fvd.renderer" "warning" (warningEnabled (lowerStr s)),
             ruleLine "fvd.renderer" "critical" (criticalEnabled (lowerStr s)),
             ruleLine "fvd.ui" "debug" (debugEnabled (lowerStr s)),
             ruleLine "fvd.ui" "info" (infoEnabled (lowerStr s)),
             ruleLine "fvd.ui" "warning" (warningEnabled (lowerStr s)),
             ruleLine "fvd.ui" "critical" (criticalEnabled (lowerStr s))] ∧
          (ruleLines (lowerStr s)).length = 16 ∧
          (debugEnabled (lowerStr s) = true → infoEnabled (lowerStr s) = true) ∧
          (infoEnabled (lowerStr s) = true → warningEnabled (lowerStr s) = true) ∧
          (warningEnabled (lowerStr s) = true → criticalEnabled (lowerStr s) = true) ∧
          (lowerStr s = "off" →
            debugEnabled (lowerStr s) = false ∧ infoEnabled (lowerStr s) = false ∧
              warningEnabled (lowerStr s) = false ∧
              criticalEnabled (lowerStr s) = false)) := by
  constructor
  · intro hbad
    show (if s = "" then ""
      else if lowerStr s ∈ logLevels then
        String.intercalate "\n" (ruleLines (lowerStr s)) else "") = ""
    rcases hbad with hempty | hnot
    · rw [if_pos hempty]
    · by_cases he : s = ""
      · rw [if_pos he]
      · rw [if_neg he, if_neg hnot]
  · intro hm
    have hne : s ≠ "" := by
      intro h0
      rw [h0] at hm
      exact absurd hm (by decide)
    refine ⟨?_, rfl, rfl, ?_, ?_, ?_, ?_⟩
    · show (if s = "" then ""
        else if lowerStr s ∈ logLevels then
          String.intercalate "\n" (ruleLines (lowerStr s)) else "") = _
      rw [if_neg hne, if_pos hm]
    · intro hd
      simp [infoEnabled, hd]
    · intro hi
      simp [warningEnabled, hi]
    · intro hw
      simp [criticalEnabled, hw]
    · intro hoff
      rw [hoff]
      decide

theorem rulesForLevel_contract_witness :
    lowerStr "WARNING" ∈ logLevels ∧ (ruleLines (lowerStr "WARNING")).length = 16 := by
  refine ⟨by decide, ?_⟩
  exact ((rulesForLevel_contract "WARNING").2 (by decide)).2.2.1

/-- C10: requestedProjectFile returns the value of the --project option
whenever it is set, even with positional arguments present; otherwise the
first positional argument when one exists, and the empty string when none
does; and main invokes loadProject exactly when the returned file name ends
with ".fvd". -/
theorem requestedProjectFile_contract (p : CommandLine) :
    (∀ v, p.projectOpt = some v → requestedProjectFile p = v) ∧
      (∀ f rest, p.projectOpt = none → p.positional = f :: rest →
        requestedProjectFile p = f) ∧
      (p.projectOpt = none → p.positional = [] → requestedProjectFile p = "") ∧
      (mainLoadsProject p = true ↔
        (requestedProjectFile p).endsWith ".fvd" = true) := by
  refine ⟨?_, ?_, ?_, Iff.rfl⟩
  · intro v hv
    simp [requestedProjectFile, hv]
  · intro f rest h1 h2
    simp [requestedProjectFile, h1, h2]
  · intro h1 h2
    simp [requestedProjectFile, h1, h2]

theorem requestedProjectFile_contract_witness :
    sampleCmdLine.projectOpt = some "coaster.fvd" ∧
      requestedProjectFile sampleCmdLine = "coaster.fvd" :=
  ⟨rfl, (requestedProjectFile_contract sampleCmdLine).1 "coaster.fvd" rfl⟩

end FVD
